import Mathlib

/-!
# Register loopback tester (`axi_template/helloworld.c`)

A shallow embedding of `main` from `helloworld.c` and the properties of its
write / read-back / compare loop.

`main` calls `init_platform`, declares three `u32` locals initialised to zero and
then runs `while(1)` forever; each iteration stores `data` to the register at
`0x40000000`, loads the register into `data_read`, increments `err` when the two
differ and increments `data`.  `cleanup_platform(); return 0;` follow the loop.

The four external routines (`init_platform`, `cleanup_platform`, `Xil_Out32`,
`Xil_In32`) are board-support code; they are a parameter of the model
(`Platform`).  Values of type `u32` are natural numbers kept below `2^32` by an
explicit reduction.
-/

namespace Helloworld

/-- Number of values of the C type `u32` (`2^32`). -/
def U32_MOD : Nat := 4294967296

/-- The address literal `0x40000000` passed to `Xil_Out32` and `Xil_In32`. -/
def TEST_ADDR : Nat := 0x40000000

/-- The controlling expression of `while(1)`. -/
def WHILE_COND : Nat := 1

/-- The external routines `main` calls, acting on a hardware state `σ`.
`Xil_In32` returns the value read together with the next hardware state. -/
structure Platform (σ : Type) where
  init_platform : σ → σ
  cleanup_platform : σ → σ
  Xil_Out32 : σ → Nat → Nat → σ
  Xil_In32 : σ → Nat → Nat × σ

/-- Observable events of an execution of `main`, in program order.  `console`
stands for output written by the program itself (e.g. through `xil_printf`). -/
inductive Event where
  | init_platform
  | Xil_Out32 (addr value : Nat)
  | Xil_In32 (addr value : Nat)
  | console (text : String)
  | cleanup_platform
  | ret (code : Int)
  deriving DecidableEq, Repr

/-- Control points of `main`: before `init_platform` (line 28), at the `while`
(lines 33 to 41), at `cleanup_platform` (line 43), and after `return`. -/
inductive Pc where
  | init
  | loop
  | cleanup
  | returned
  deriving DecidableEq, Repr

/-- A configuration of `main`: control point, the three locals, the hardware
state and the events emitted so far (oldest first). -/
structure Config (σ : Type) where
  pc : Pc
  data : Nat
  data_read : Nat
  err : Nat
  hw : σ
  trace : List Event

/-- One pass through the body of the `while` (lines 34 to 40). -/
def loopBody {σ : Type} (P : Platform σ) (c : Config σ) : Config σ :=
  let hw1 := P.Xil_Out32 c.hw TEST_ADDR c.data
  let rd := P.Xil_In32 hw1 TEST_ADDR
  let data_read := rd.1 % U32_MOD
  let err := if c.data ≠ data_read then (c.err + 1) % U32_MOD else c.err
  { pc := Pc.loop
    data := (c.data + 1) % U32_MOD
    data_read := data_read
    err := err
    hw := rd.2
    trace := c.trace ++ [Event.Xil_Out32 TEST_ADDR c.data, Event.Xil_In32 TEST_ADDR data_read] }

/-- One step of `main`.  At `Pc.init` it runs lines 28 to 31; at `Pc.loop` it
tests the loop condition and runs the body once, or leaves the loop when the
condition is zero; at `Pc.cleanup` it runs lines 43 and 44.  A returned program
has no further step. -/
def step {σ : Type} (P : Platform σ) (c : Config σ) : Option (Config σ) :=
  match c.pc with
  | Pc.init =>
    some { pc := Pc.loop, data := 0, data_read := 0, err := 0,
           hw := P.init_platform c.hw, trace := c.trace ++ [Event.init_platform] }
  | Pc.loop =>
    if WHILE_COND ≠ 0 then some (loopBody P c)
    else some { c with pc := Pc.cleanup }
  | Pc.cleanup =>
    some { c with pc := Pc.returned, hw := P.cleanup_platform c.hw,
                  trace := c.trace ++ [Event.cleanup_platform, Event.ret 0] }
  | Pc.returned => none

/-- The configuration after `k` steps, if the program can take that many. -/
def run {σ : Type} (P : Platform σ) : Nat → Config σ → Option (Config σ)
  | 0, c => some c
  | k + 1, c => (run P k c).bind (step P)

/-- The configuration on entry to `main`: nothing emitted yet, the locals not yet
declared (their storage holds the arbitrary values `junk`). -/
def start {σ : Type} (h : σ) (junk : Nat × Nat × Nat) : Config σ :=
  { pc := Pc.init, data := junk.1, data_read := junk.2.1, err := junk.2.2, hw := h, trace := [] }

/-- The configuration in which the `while` is first reached (after lines 28 to 31). -/
def loopEntry {σ : Type} (P : Platform σ) (h : σ) : Config σ :=
  { pc := Pc.loop, data := 0, data_read := 0, err := 0,
    hw := P.init_platform h, trace := [Event.init_platform] }

/-- The loop body run `n` times. -/
def iter {σ : Type} (P : Platform σ) : Nat → Config σ → Config σ
  | 0, c => c
  | n + 1, c => loopBody P (iter P n c)

/-- Hardware that answers the `i`-th `Xil_In32` with `r i`, whatever was written.
The hardware state is the number of reads answered so far. -/
def oracle (r : Nat → Nat) : Platform Nat where
  init_platform := fun s => s
  cleanup_platform := fun s => s
  Xil_Out32 := fun s _ _ => s
  Xil_In32 := fun s _ => (r s, s + 1)

/-- Memory as a map from address to value: `Xil_Out32` stores, `Xil_In32` returns
the value most recently stored at the address.  `bringup` and `teardown` are what
`init_platform` and `cleanup_platform` do to memory. -/
def registerModel (bringup teardown : (Nat → Nat) → (Nat → Nat)) : Platform (Nat → Nat) where
  init_platform := bringup
  cleanup_platform := teardown
  Xil_Out32 := fun m a v => Function.update m a v
  Xil_In32 := fun m a => (m a, m)

/-- The configuration after `n` iterations of the loop of `main` when the `i`-th
read-back value is `r i`. -/
def mainAfter (r : Nat → Nat) (n : Nat) : Config Nat :=
  iter (oracle r) n (loopEntry (oracle r) 0)

/-- The number of indices `i < n` whose read-back value differs from `i mod 2^32`. -/
def mismatches (r : Nat → Nat) (n : Nat) : Nat :=
  (List.range n).countP (fun i => decide (r i ≠ i % U32_MOD))

/-- Whether an event is a register access. -/
def Event.isAccess : Event → Bool
  | Event.Xil_Out32 _ _ => true
  | Event.Xil_In32 _ _ => true
  | _ => false

/-- Whether an event is a register write. -/
def Event.isWrite : Event → Bool
  | Event.Xil_Out32 _ _ => true
  | _ => false

/-- Whether an event is a register read. -/
def Event.isRead : Event → Bool
  | Event.Xil_In32 _ _ => true
  | _ => false

/-- Whether an event is console output. -/
def Event.isConsole : Event → Bool
  | Event.console _ => true
  | _ => false

/-- The address of a register access. -/
def Event.addrOf : Event → Option Nat
  | Event.Xil_Out32 a _ => some a
  | Event.Xil_In32 a _ => some a
  | _ => none

/-- The register accesses of a trace, in order. -/
def accesses (t : List Event) : List Event := t.filter Event.isAccess

/-- The `(address, value)` pairs written in a trace, in order. -/
def writes (t : List Event) : List (Nat × Nat) :=
  t.filterMap (fun e => match e with
    | Event.Xil_Out32 a v => some (a, v)
    | _ => none)

/-- The register accesses of iterations `0, ..., n-1`, in order, when the read of
iteration `i` returns `v i`: each iteration writes `i mod 2^32` and then reads. -/
def loopAccesses (v : Nat → Nat) : Nat → List Event
  | 0 => []
  | n + 1 => loopAccesses v n
      ++ [Event.Xil_Out32 TEST_ADDR (n % U32_MOD), Event.Xil_In32 TEST_ADDR (v n)]

/-- The value `Xil_In32` returned in iteration `i` of the loop of `main`, as stored
in `data_read`. -/
def readBack {σ : Type} (P : Platform σ) (h : σ) (i : Nat) : Nat :=
  (iter P (i + 1) (loopEntry P h)).data_read

/-- Every read returns the successor (mod `2^32`) of the value written: every
iteration is a mismatch. -/
def alwaysOff (i : Nat) : Nat := (i + 1) % U32_MOD

/-- The first read returns `1` instead of `0`; every later read echoes the write. -/
def firstOff (i : Nat) : Nat := if i = 0 then 1 else i % U32_MOD

/-- The read of iteration 5 returns `6` instead of `5`; every other read echoes
the write. -/
def fiveReadsSix (i : Nat) : Nat := if i = 5 then 6 else i % U32_MOD

/-- The memory in which every address holds zero. -/
def zeroMem : Nat → Nat := fun _ => 0

/-- The register model in which `init_platform` and `cleanup_platform` leave
memory alone. -/
def plainRegister : Platform (Nat → Nat) := registerModel (fun m => m) (fun m => m)

/-! ## Basic facts about one iteration and about `n` iterations -/

theorem loopBody_pc {σ : Type} (P : Platform σ) (c : Config σ) :
    (loopBody P c).pc = Pc.loop := rfl

theorem loopBody_data {σ : Type} (P : Platform σ) (c : Config σ) :
    (loopBody P c).data = (c.data + 1) % U32_MOD := rfl

theorem loopBody_data_read {σ : Type} (P : Platform σ) (c : Config σ) :
    (loopBody P c).data_read
      = (P.Xil_In32 (P.Xil_Out32 c.hw TEST_ADDR c.data) TEST_ADDR).1 % U32_MOD := rfl

theorem loopBody_err {σ : Type} (P : Platform σ) (c : Config σ) :
    (loopBody P c).err
      = if c.data ≠ (loopBody P c).data_read then (c.err + 1) % U32_MOD else c.err := rfl

theorem loopBody_hw {σ : Type} (P : Platform σ) (c : Config σ) :
    (loopBody P c).hw = (P.Xil_In32 (P.Xil_Out32 c.hw TEST_ADDR c.data) TEST_ADDR).2 := rfl

theorem loopBody_trace {σ : Type} (P : Platform σ) (c : Config σ) :
    (loopBody P c).trace
      = c.trace ++ [Event.Xil_Out32 TEST_ADDR c.data,
                    Event.Xil_In32 TEST_ADDR (loopBody P c).data_read] := rfl

theorem iter_succ {σ : Type} (P : Platform σ) (n : Nat) (c : Config σ) :
    iter P (n + 1) c = loopBody P (iter P n c) := rfl

theorem iter_pc {σ : Type} (P : Platform σ) (n : Nat) (c : Config σ) (hc : c.pc = Pc.loop) :
    (iter P n c).pc = Pc.loop := by
  cases n with
  | zero => exact hc
  | succ n => rfl

theorem iter_entry_pc {σ : Type} (P : Platform σ) (h : σ) (n : Nat) :
    (iter P n (loopEntry P h)).pc = Pc.loop :=
  iter_pc P n _ rfl

theorem iter_entry_data {σ : Type} (P : Platform σ) (h : σ) (n : Nat) :
    (iter P n (loopEntry P h)).data = n % U32_MOD := by
  induction n with
  | zero => rfl
  | succ n ih =>
    rw [iter_succ, loopBody_data, ih]
    unfold U32_MOD
    omega

theorem step_start {σ : Type} (P : Platform σ) (h : σ) (junk : Nat × Nat × Nat) :
    step P (start h junk) = some (loopEntry P h) := rfl

theorem step_loop {σ : Type} (P : Platform σ) (c : Config σ) (hc : c.pc = Pc.loop) :
    step P c = some (loopBody P c) := by
  unfold step
  rw [hc]
  rfl

theorem run_succ_start {σ : Type} (P : Platform σ) (h : σ) (junk : Nat × Nat × Nat) (n : Nat) :
    run P (n + 1) (start h junk) = some (iter P n (loopEntry P h)) := by
  induction n with
  | zero => rfl
  | succ n ih =>
    show (run P (n + 1) (start h junk)).bind (step P) = _
    rw [ih, Option.some_bind, step_loop P _ (iter_entry_pc P h n)]
    rfl

/-! ## The trace of `n` iterations -/

theorem iter_entry_trace {σ : Type} (P : Platform σ) (h : σ) (n : Nat) :
    (iter P n (loopEntry P h)).trace
      = Event.init_platform :: loopAccesses (readBack P h) n := by
  induction n with
  | zero => rfl
  | succ n ih =>
    rw [iter_succ, loopBody_trace, ih, iter_entry_data]
    rfl

theorem loopAccesses_length (v : Nat → Nat) (n : Nat) :
    (loopAccesses v n).length = 2 * n := by
  induction n with
  | zero => rfl
  | succ n ih =>
    show (loopAccesses v n ++ _).length = _
    rw [List.length_append, ih]
    simp
    omega

theorem loopAccesses_mem (v : Nat → Nat) (n : Nat) (e : Event) (he : e ∈ loopAccesses v n) :
    ∃ i, i < n ∧ (e = Event.Xil_Out32 TEST_ADDR (i % U32_MOD) ∨ e = Event.Xil_In32 TEST_ADDR (v i)) := by
  induction n with
  | zero => cases he
  | succ n ih =>
    change e ∈ loopAccesses v n ++ _ at he
    rw [List.mem_append] at he
    rcases he with he | he
    · obtain ⟨i, hi, h⟩ := ih he
      exact ⟨i, by omega, h⟩
    · simp only [List.mem_cons, List.mem_singleton, List.not_mem_nil, or_false] at he
      exact ⟨n, by omega, he⟩

theorem loopAccesses_write (v : Nat → Nat) (n i : Nat) (hi : i < n) :
    (loopAccesses v n)[2 * i]? = some (Event.Xil_Out32 TEST_ADDR (i % U32_MOD)) := by
  induction n with
  | zero => omega
  | succ n ih =>
    show (loopAccesses v n ++ _)[2 * i]? = _
    by_cases h : i < n
    · rw [List.getElem?_append_left (by rw [loopAccesses_length]; omega)]
      exact ih h
    · have hin : i = n := by omega
      subst hin
      rw [List.getElem?_append_right (by rw [loopAccesses_length])]
      simp [loopAccesses_length]

theorem loopAccesses_read (v : Nat → Nat) (n i : Nat) (hi : i < n) :
    (loopAccesses v n)[2 * i + 1]? = some (Event.Xil_In32 TEST_ADDR (v i)) := by
  induction n with
  | zero => omega
  | succ n ih =>
    show (loopAccesses v n ++ _)[2 * i + 1]? = _
    by_cases h : i < n
    · rw [List.getElem?_append_left (by rw [loopAccesses_length]; omega)]
      exact ih h
    · have hin : i = n := by omega
      subst hin
      rw [List.getElem?_append_right (by rw [loopAccesses_length]; omega)]
      simp [loopAccesses_length]

theorem loopAccesses_accesses (v : Nat → Nat) (n : Nat) :
    accesses (loopAccesses v n) = loopAccesses v n := by
  unfold accesses
  rw [List.filter_eq_self]
  intro e he
  obtain ⟨i, _, h | h⟩ := loopAccesses_mem v n e he <;> rw [h] <;> rfl

theorem loopAccesses_countP_write (v : Nat → Nat) (n : Nat) :
    (loopAccesses v n).countP Event.isWrite = n := by
  induction n with
  | zero => rfl
  | succ n ih =>
    show (loopAccesses v n ++ _).countP _ = _
    rw [List.countP_append, ih]
    rfl

theorem loopAccesses_countP_read (v : Nat → Nat) (n : Nat) :
    (loopAccesses v n).countP Event.isRead = n := by
  induction n with
  | zero => rfl
  | succ n ih =>
    show (loopAccesses v n ++ _).countP _ = _
    rw [List.countP_append, ih]
    rfl

theorem loopAccesses_writes (v w : Nat → Nat) (n : Nat) :
    writes (loopAccesses v n) = writes (loopAccesses w n) := by
  induction n with
  | zero => rfl
  | succ n ih =>
    show writes (loopAccesses v n ++ _) = writes (loopAccesses w n ++ _)
    unfold writes at *
    rw [List.filterMap_append, List.filterMap_append, ih]
    rfl

/-! ## The read-back oracle -/

theorem mainAfter_succ (r : Nat → Nat) (n : Nat) :
    mainAfter r (n + 1) = loopBody (oracle r) (mainAfter r n) := rfl

theorem mainAfter_hw (r : Nat → Nat) (n : Nat) : (mainAfter r n).hw = n := by
  induction n with
  | zero => rfl
  | succ n ih =>
    rw [mainAfter_succ, loopBody_hw]
    show (mainAfter r n).hw + 1 = n + 1
    rw [ih]

theorem mainAfter_data (r : Nat → Nat) (n : Nat) : (mainAfter r n).data = n % U32_MOD :=
  iter_entry_data (oracle r) 0 n

theorem mainAfter_succ_data_read (r : Nat → Nat) (n : Nat) :
    (mainAfter r (n + 1)).data_read = r n % U32_MOD := by
  rw [mainAfter_succ, loopBody_data_read]
  show r (mainAfter r n).hw % U32_MOD = _
  rw [mainAfter_hw]

theorem mainAfter_succ_err (r : Nat → Nat) (n : Nat) :
    (mainAfter r (n + 1)).err
      = if n % U32_MOD ≠ r n % U32_MOD then ((mainAfter r n).err + 1) % U32_MOD
        else (mainAfter r n).err := by
  have h := loopBody_err (oracle r) (mainAfter r n)
  rw [← mainAfter_succ, mainAfter_succ_data_read, mainAfter_data] at h
  exact h

theorem mismatches_succ (r : Nat → Nat) (n : Nat) :
    mismatches r (n + 1) = mismatches r n + (if r n ≠ n % U32_MOD then 1 else 0) := by
  unfold mismatches
  rw [List.range_succ, List.countP_append]
  by_cases h : r n = n % U32_MOD <;> simp [h]

theorem mainAfter_err_lt (r : Nat → Nat) (n : Nat) : (mainAfter r n).err < U32_MOD := by
  cases n with
  | zero => show 0 < U32_MOD; unfold U32_MOD; omega
  | succ n =>
    rw [mainAfter_succ_err]
    have ih := mainAfter_err_lt r n
    unfold U32_MOD at *
    split <;> omega

theorem mainAfter_err (r : Nat → Nat) (hr : ∀ i, r i < U32_MOD) (n : Nat) :
    (mainAfter r n).err = mismatches r n % U32_MOD := by
  induction n with
  | zero => rfl
  | succ n ih =>
    rw [mainAfter_succ_err, mismatches_succ, ih, Nat.mod_eq_of_lt (hr n)]
    have h := hr n
    unfold U32_MOD at *
    by_cases hm : r n = n % 4294967296
    · rw [if_neg (by omega), if_neg (by omega)]; omega
    · rw [if_pos (by omega), if_pos (by omega)]; omega

theorem mainAfter_err_le (r : Nat → Nat) (n : Nat) : (mainAfter r n).err ≤ n := by
  induction n with
  | zero => exact Nat.le_refl 0
  | succ n ih =>
    rw [mainAfter_succ_err]
    have hmod := Nat.mod_le ((mainAfter r n).err + 1) U32_MOD
    split <;> omega

theorem mainAfter_trace (r : Nat → Nat) (n : Nat) :
    (mainAfter r n).trace
      = Event.init_platform :: loopAccesses (fun i => r i % U32_MOD) n := by
  unfold mainAfter
  rw [iter_entry_trace]
  congr 2
  funext i
  exact mainAfter_succ_data_read r i

/-! ## Two particular read-back sequences -/

theorem alwaysOff_lt (i : Nat) : alwaysOff i < U32_MOD := by
  unfold alwaysOff U32_MOD
  omega

theorem firstOff_lt (i : Nat) : firstOff i < U32_MOD := by
  unfold firstOff U32_MOD
  split <;> omega

theorem mismatches_alwaysOff (n : Nat) : mismatches alwaysOff n = n := by
  induction n with
  | zero => rfl
  | succ n ih =>
    rw [mismatches_succ, ih, if_pos]
    unfold alwaysOff U32_MOD
    omega

theorem mismatches_firstOff (n : Nat) : mismatches firstOff (n + 1) = 1 := by
  induction n with
  | zero => rfl
  | succ n ih =>
    rw [mismatches_succ, ih, if_neg]
    unfold firstOff
    simp

theorem mismatches_firstOff_pos (n : Nat) (hn : 0 < n) : mismatches firstOff n = 1 := by
  cases n with
  | zero => omega
  | succ n => exact mismatches_firstOff n

/-! ## The register model -/

theorem register_loopBody_data_read (bringup teardown : (Nat → Nat) → (Nat → Nat))
    (c : Config (Nat → Nat)) :
    (loopBody (registerModel bringup teardown) c).data_read = c.data % U32_MOD := by
  rw [loopBody_data_read]
  show Function.update c.hw TEST_ADDR c.data TEST_ADDR % U32_MOD = _
  rw [Function.update_same]

theorem register_loopBody_hw (bringup teardown : (Nat → Nat) → (Nat → Nat))
    (c : Config (Nat → Nat)) :
    (loopBody (registerModel bringup teardown) c).hw
      = Function.update c.hw TEST_ADDR c.data := rfl

theorem register_readBack (bringup teardown : (Nat → Nat) → (Nat → Nat))
    (m0 : Nat → Nat) (i : Nat) :
    readBack (registerModel bringup teardown) m0 i = i % U32_MOD := by
  unfold readBack
  rw [iter_succ, register_loopBody_data_read, iter_entry_data, Nat.mod_mod]

theorem register_err (bringup teardown : (Nat → Nat) → (Nat → Nat))
    (m0 : Nat → Nat) (n : Nat) :
    (iter (registerModel bringup teardown) n
      (loopEntry (registerModel bringup teardown) m0)).err = 0 := by
  induction n with
  | zero => rfl
  | succ n ih =>
    rw [iter_succ, loopBody_err, register_loopBody_data_read, iter_entry_data, Nat.mod_mod,
      if_neg (by simp), ih]

theorem register_frame (bringup teardown : (Nat → Nat) → (Nat → Nat))
    (c : Config (Nat → Nat)) (n a : Nat) (ha : a ≠ TEST_ADDR) :
    (iter (registerModel bringup teardown) n c).hw a = c.hw a := by
  induction n with
  | zero => rfl
  | succ n ih =>
    rw [iter_succ, register_loopBody_hw, Function.update_noteq ha, ih]

theorem loopAccesses_addr (v : Nat → Nat) (n : Nat) (e : Event) (he : e ∈ loopAccesses v n) :
    e.isAccess = true ∧ e.addrOf = some TEST_ADDR := by
  obtain ⟨i, _, h | h⟩ := loopAccesses_mem v n e he <;> rw [h] <;> exact ⟨rfl, rfl⟩

/-! ## Properties of `main` -/

/-- C1 (mismatch counting).  Let the `i`-th `Xil_In32` return the 32-bit value `r i`.
One pass through the loop body, from any values of `data` and `err`, adds one to
`err` modulo `2^32` when the value read differs from the value of `data` just
written and leaves `err` unchanged when they are equal; in the run of `main` the
pass numbered `n` writes `n mod 2^32` and reads `r n`; and after `n` passes from
`data = 0`, `err = 0` the counter `err` is the number of indices `i < n` with
`r i ≠ i mod 2^32`, reduced modulo `2^32`. -/
theorem mismatch_counting (r : Nat → Nat) (hr : ∀ i, r i < U32_MOD) (n : Nat) :
    (∀ c : Config Nat,
      (loopBody (oracle r) c).err
        = if r c.hw ≠ c.data then (c.err + 1) % U32_MOD else c.err) ∧
    (∀ junk, run (oracle r) (n + 1) (start 0 junk) = some (mainAfter r n)) ∧
    (mainAfter r n).data = n % U32_MOD ∧
    (mainAfter r (n + 1)).data_read = r n ∧
    (mainAfter r (n + 1)).err
      = (if r n ≠ (mainAfter r n).data then ((mainAfter r n).err + 1) % U32_MOD
         else (mainAfter r n).err) ∧
    (mainAfter r n).err = mismatches r n % U32_MOD := by
  refine ⟨?_, ?_, mainAfter_data r n, ?_, ?_, mainAfter_err r hr n⟩
  · intro c
    rw [loopBody_err, loopBody_data_read]
    show (if c.data ≠ r c.hw % U32_MOD then _ else _) = _
    rw [Nat.mod_eq_of_lt (hr c.hw)]
    by_cases h : r c.hw = c.data
    · rw [if_neg (by simp [h]), if_neg (by simp [h])]
    · rw [if_pos (fun e => h e.symm), if_pos h]
  · intro junk
    exact run_succ_start (oracle r) 0 junk n
  · rw [mainAfter_succ_data_read, Nat.mod_eq_of_lt (hr n)]
  · rw [mainAfter_succ_err, mainAfter_data, Nat.mod_eq_of_lt (hr n)]
    by_cases h : r n = n % U32_MOD
    · rw [if_neg (by simp [h]), if_neg (by simp [h])]
    · rw [if_pos (fun e => h e.symm), if_pos h]

/-- Instance of C1: when only the read of iteration 5 is wrong (write `5`, read
`6`), six iterations leave `err = 1`. -/
theorem mismatch_counting_witness :
    (∀ i, fiveReadsSix i < U32_MOD) ∧ (mainAfter fiveReadsSix 6).err = 1 :=
  ⟨fun i => by unfold fiveReadsSix U32_MOD; split <;> omega,
   ((mismatch_counting fiveReadsSix
      (fun i => by unfold fiveReadsSix U32_MOD; split <;> omega) 6).2.2.2.2.2).trans
    (by decide)⟩

/-- C2 (write-then-read identity).  With the register model (a read returns the
value most recently stored at the address), a pass through the loop body that
starts with `data = v`, `v` any 32-bit value, writes `v` and reads back `v` into
`data_read`, and leaves `err` unchanged; in the run of `main` the read of every
iteration `n` returns the value `n mod 2^32` just written, and `err` is `0` after
every number `n` of iterations. -/
theorem write_read_identity (bringup teardown : (Nat → Nat) → (Nat → Nat))
    (v : Nat) (hv : v < U32_MOD) (c : Config (Nat → Nat)) (m0 : Nat → Nat) (n : Nat) :
    (loopBody (registerModel bringup teardown) { c with data := v }).data_read = v ∧
    (loopBody (registerModel bringup teardown) { c with data := v }).trace
      = c.trace ++ [Event.Xil_Out32 TEST_ADDR v, Event.Xil_In32 TEST_ADDR v] ∧
    (loopBody (registerModel bringup teardown) { c with data := v }).err = c.err ∧
    readBack (registerModel bringup teardown) m0 n = n % U32_MOD ∧
    (iter (registerModel bringup teardown) n
      (loopEntry (registerModel bringup teardown) m0)).err = 0 := by
  have hrd : (loopBody (registerModel bringup teardown) { c with data := v }).data_read = v := by
    rw [register_loopBody_data_read]
    exact Nat.mod_eq_of_lt hv
  refine ⟨hrd, ?_, ?_, register_readBack bringup teardown m0 n,
    register_err bringup teardown m0 n⟩
  · rw [loopBody_trace, hrd]
  · rw [loopBody_err, hrd]
    exact if_neg (fun h => h rfl)

/-- Instance of C2 at `v = 0xFFFFFFFF`: the value is written and read back, and
`err` stays `0`. -/
theorem write_read_identity_witness :
    4294967295 < U32_MOD ∧
    (loopBody plainRegister { loopEntry plainRegister zeroMem with data := 4294967295 }).data_read
      = 4294967295 ∧
    (loopBody plainRegister { loopEntry plainRegister zeroMem with data := 4294967295 }).err
      = 0 :=
  ⟨by decide,
   (write_read_identity (fun m => m) (fun m => m) 4294967295 (by decide)
      (loopEntry plainRegister zeroMem) zeroMem 0).1,
   (write_read_identity (fun m => m) (fun m => m) 4294967295 (by decide)
      (loopEntry plainRegister zeroMem) zeroMem 0).2.2.1⟩

/-- C3 (counter wraparound).  Whatever the hardware does, `n` iterations after
entry to the loop are `n + 1` steps of `main`, end at the loop with
`data = n mod 2^32`; the same holds for every sequence `r` of read-back values.  A
step at the loop that starts with `data = 0xFFFFFFFF` succeeds and ends at the
loop with `data = 0`; after `2^32 - 1` iterations `data` is `0xFFFFFFFF` and after
`2^32` iterations it is `0` again. -/
theorem data_wraparound {σ : Type} (P : Platform σ) (h : σ) (junk : Nat × Nat × Nat)
    (r : Nat → Nat) (n : Nat) :
    (∃ c, run P (n + 1) (start h junk) = some c ∧ c = iter P n (loopEntry P h) ∧
      c.pc = Pc.loop ∧ c.data = n % U32_MOD) ∧
    (mainAfter r n).data = n % U32_MOD ∧
    (∀ (dr e : Nat) (hw : σ) (t : List Event),
      ∃ c, step P { pc := Pc.loop, data := 4294967295, data_read := dr, err := e,
                    hw := hw, trace := t } = some c ∧ c.pc = Pc.loop ∧ c.data = 0) ∧
    (iter P 4294967295 (loopEntry P h)).data = 4294967295 ∧
    (iter P 4294967296 (loopEntry P h)).data = 0 ∧
    (∃ c, run P (4294967296 + 1) (start h junk) = some c ∧ c.pc = Pc.loop ∧ c.data = 0) := by
  refine ⟨⟨_, run_succ_start P h junk n, rfl, iter_entry_pc P h n, iter_entry_data P h n⟩,
    mainAfter_data r n, ?_, ?_, ?_,
    ⟨_, run_succ_start P h junk 4294967296, iter_entry_pc P h _, ?_⟩⟩
  · intro dr e hw t
    refine ⟨_, step_loop P _ rfl, rfl, ?_⟩
    show (4294967295 + 1) % U32_MOD = 0
    decide
  · rw [iter_entry_data]; rfl
  · rw [iter_entry_data]; rfl
  · rw [iter_entry_data]; rfl

/-- C4, the claim as stated fails: when every read-back is off by one, `err` is
`0xFFFFFFFF` after `2^32 - 1` iterations and `0` after `2^32` iterations, so it has
decreased. -/
theorem err_monotone_counterexample :
    (∀ i, alwaysOff i < U32_MOD) ∧
    (mainAfter alwaysOff 4294967295).err = 4294967295 ∧
    (mainAfter alwaysOff (4294967295 + 1)).err = 0 ∧
    ¬ ((mainAfter alwaysOff 4294967295).err ≤ (mainAfter alwaysOff (4294967295 + 1)).err) := by
  have h1 : (mainAfter alwaysOff 4294967295).err = 4294967295 := by
    rw [mainAfter_err alwaysOff alwaysOff_lt, mismatches_alwaysOff]
    rfl
  have h2 : (mainAfter alwaysOff (4294967295 + 1)).err = 0 := by
    rw [mainAfter_err alwaysOff alwaysOff_lt, mismatches_alwaysOff]
    rfl
  refine ⟨alwaysOff_lt, h1, h2, ?_⟩
  rw [h1, h2]
  decide

/-- C4 as amended: for every sequence of read-back values and every `n`, `err`
after `n + 1` iterations is greater than or equal to `err` after `n` iterations
exactly when it is not the case that `err` after `n` iterations is `0xFFFFFFFF`
and iteration `n` reads back a value different from the `data` it wrote; in that
one case `err` after `n + 1` iterations is `0`; in particular `err` does not
decrease in iteration `n` for every `n < 2^32 - 1`. -/
theorem err_monotone_until_wrap (r : Nat → Nat) (n : Nat) :
    ((mainAfter r n).err ≤ (mainAfter r (n + 1)).err ↔
      ¬ ((mainAfter r n).err = 4294967295 ∧
         (mainAfter r (n + 1)).data_read ≠ (mainAfter r n).data)) ∧
    ((mainAfter r n).err = 4294967295 →
      (mainAfter r (n + 1)).data_read ≠ (mainAfter r n).data →
      (mainAfter r (n + 1)).err = 0) ∧
    (n < 4294967295 → (mainAfter r n).err ≤ (mainAfter r (n + 1)).err) := by
  have hlt := mainAfter_err_lt r n
  have hle := mainAfter_err_le r n
  have hstep : (mainAfter r (n + 1)).err
      = if (mainAfter r n).data ≠ (mainAfter r (n + 1)).data_read
        then ((mainAfter r n).err + 1) % U32_MOD else (mainAfter r n).err :=
    loopBody_err (oracle r) (mainAfter r n)
  unfold U32_MOD at hlt hstep
  by_cases hm : (mainAfter r n).data = (mainAfter r (n + 1)).data_read
  · rw [if_neg (fun hne => hne hm)] at hstep
    refine ⟨⟨fun _ hc => hc.2 hm.symm, fun _ => by omega⟩, fun _ hne => (hne hm.symm).elim,
      fun _ => by omega⟩
  · rw [if_pos hm] at hstep
    have hm2 : (mainAfter r (n + 1)).data_read ≠ (mainAfter r n).data := fun e => hm e.symm
    refine ⟨⟨fun hmono hc => by omega, fun hnot => ?_⟩, fun hmax _ => by omega,
      fun _ => by omega⟩
    have hne : (mainAfter r n).err ≠ 4294967295 := fun e => hnot ⟨e, hm2⟩
    omega

/-- Instance of the amended C4: with every read-back off by one, `err` does not
decrease from the third to the fourth iteration. -/
theorem err_monotone_until_wrap_witness :
    3 < 4294967295 ∧
    (mainAfter alwaysOff 3).err ≤ (mainAfter alwaysOff (3 + 1)).err :=
  ⟨by decide, (err_monotone_until_wrap alwaysOff 3).2.2 (by decide)⟩

/-- C5 (no early termination).  Whatever the hardware does and whatever the
locals hold: `N` iterations are `N + 1` steps of `main` and end at the loop; after
any number `k` of steps the program has a configuration, it is not at
`cleanup_platform` and has not returned, and neither `cleanup_platform` nor a
`return` has been emitted; and from the loop, for all values of `data`,
`data_read` and `err`, the only step leads back to the loop. -/
theorem no_early_termination {σ : Type} (P : Platform σ) (h : σ) (junk : Nat × Nat × Nat)
    (N : Nat) :
    (∃ c, run P (N + 1) (start h junk) = some c ∧ c = iter P N (loopEntry P h) ∧
      c.pc = Pc.loop) ∧
    (∀ k, ∃ c, run P k (start h junk) = some c ∧ c.pc ≠ Pc.cleanup ∧ c.pc ≠ Pc.returned ∧
      Event.cleanup_platform ∉ c.trace ∧ ∀ code, Event.ret code ∉ c.trace) ∧
    (∀ (d dr e : Nat) (hw : σ) (t : List Event),
      ∃ c, step P { pc := Pc.loop, data := d, data_read := dr, err := e,
                    hw := hw, trace := t } = some c ∧ c.pc = Pc.loop) := by
  refine ⟨⟨_, run_succ_start P h junk N, rfl, iter_entry_pc P h N⟩, ?_, ?_⟩
  · intro k
    cases k with
    | zero =>
      refine ⟨start h junk, rfl, ?_, ?_, ?_, ?_⟩
      · intro hc; cases hc
      · intro hc; cases hc
      · intro hm; cases hm
      · intro code hm; cases hm
    | succ k =>
      refine ⟨_, run_succ_start P h junk k, ?_, ?_, ?_, ?_⟩
      · rw [iter_entry_pc]; intro hc; cases hc
      · rw [iter_entry_pc]; intro hc; cases hc
      · rw [iter_entry_trace]
        intro hm
        rcases List.mem_cons.mp hm with hm | hm
        · cases hm
        · have ha := (loopAccesses_addr _ _ _ hm).1
          cases ha
      · rw [iter_entry_trace]
        intro code hm
        rcases List.mem_cons.mp hm with hm | hm
        · cases hm
        · have ha := (loopAccesses_addr _ _ _ hm).1
          cases ha
  · intro d dr e hw t
    exact ⟨_, step_loop P _ rfl, rfl⟩

/-- C6 (ordering).  Whatever the hardware does, the register accesses in the
trace of `n` iterations of the loop of `main` are `2 n` events that alternate
write, read: for every iteration `i < n`, position `2 i` is the write of
`i mod 2^32` to `0x40000000` and position `2 i + 1` is the read of iteration `i`
(the value stored in `data_read` in that iteration).  Under the register model
the read of iteration `i` returns `i mod 2^32`, which is neither the value written
in iteration `i + 1` nor (for `i > 0`) the value written in iteration `i - 1`. -/
theorem access_ordering {σ : Type} (P : Platform σ) (h : σ)
    (bringup teardown : (Nat → Nat) → (Nat → Nat)) (m0 : Nat → Nat)
    (n i : Nat) (hi : i < n) :
    (accesses (iter P n (loopEntry P h)).trace).length = 2 * n ∧
    (accesses (iter P n (loopEntry P h)).trace)[2 * i]?
      = some (Event.Xil_Out32 TEST_ADDR (i % U32_MOD)) ∧
    (accesses (iter P n (loopEntry P h)).trace)[2 * i + 1]?
      = some (Event.Xil_In32 TEST_ADDR (readBack P h i)) ∧
    (accesses (iter (registerModel bringup teardown) n
        (loopEntry (registerModel bringup teardown) m0)).trace)[2 * i + 1]?
      = some (Event.Xil_In32 TEST_ADDR (i % U32_MOD)) ∧
    readBack (registerModel bringup teardown) m0 i = i % U32_MOD ∧
    readBack (registerModel bringup teardown) m0 i ≠ (i + 1) % U32_MOD ∧
    (0 < i → readBack (registerModel bringup teardown) m0 i ≠ (i - 1) % U32_MOD) := by
  have hacc : ∀ {τ : Type} (Q : Platform τ) (g : τ),
      accesses (iter Q n (loopEntry Q g)).trace = loopAccesses (readBack Q g) n := by
    intro τ Q g
    rw [iter_entry_trace]
    show accesses (loopAccesses (readBack Q g) n) = _
    exact loopAccesses_accesses _ n
  have hreg := register_readBack bringup teardown m0 i
  refine ⟨?_, ?_, ?_, ?_, hreg, ?_, ?_⟩
  · rw [hacc, loopAccesses_length]
  · rw [hacc, loopAccesses_write _ n i hi]
  · rw [hacc, loopAccesses_read _ n i hi]
  · rw [hacc, loopAccesses_read _ n i hi, hreg]
  · rw [hreg]; unfold U32_MOD; omega
  · intro hpos
    rw [hreg]; unfold U32_MOD; omega

/-- Instance of C6: in three iterations on a plain register, positions 2 and 3
of the accesses are the write of `1` and the read of `1`. -/
theorem access_ordering_witness :
    1 < 3 ∧
    (accesses (iter plainRegister 3 (loopEntry plainRegister zeroMem)).trace)[2 * 1]?
      = some (Event.Xil_Out32 TEST_ADDR (1 % U32_MOD)) ∧
    (accesses (iter plainRegister 3 (loopEntry plainRegister zeroMem)).trace)[2 * 1 + 1]?
      = some (Event.Xil_In32 TEST_ADDR (1 % U32_MOD)) :=
  ⟨by decide,
   (access_ordering plainRegister zeroMem (fun m => m) (fun m => m) zeroMem 3 1
      (by decide)).2.1,
   (access_ordering plainRegister zeroMem (fun m => m) (fun m => m) zeroMem 3 1
      (by decide)).2.2.2.1⟩

/-- C7 (sole side effect).  With memory an explicit map from address to value,
the trace of `n` iterations of the loop of `main` holds exactly `n` writes and `n`
reads, every register access in it is at `0x40000000`, and it holds no console
output; every address `a` other than `0x40000000` holds after the `n` iterations
the value it held on entry to the loop, while `0x40000000` holds the value last
written. -/
theorem sole_side_effect (bringup teardown : (Nat → Nat) → (Nat → Nat)) (m0 : Nat → Nat)
    (n a : Nat) (ha : a ≠ TEST_ADDR) :
    ((iter (registerModel bringup teardown) n
        (loopEntry (registerModel bringup teardown) m0)).trace).countP Event.isWrite = n ∧
    ((iter (registerModel bringup teardown) n
        (loopEntry (registerModel bringup teardown) m0)).trace).countP Event.isRead = n ∧
    (∀ e ∈ (iter (registerModel bringup teardown) n
        (loopEntry (registerModel bringup teardown) m0)).trace,
      e = Event.init_platform ∨ (e.isAccess = true ∧ e.addrOf = some TEST_ADDR)) ∧
    (∀ e ∈ (iter (registerModel bringup teardown) n
        (loopEntry (registerModel bringup teardown) m0)).trace, e.isConsole = false) ∧
    (iter (registerModel bringup teardown) n
        (loopEntry (registerModel bringup teardown) m0)).hw a = bringup m0 a ∧
    (iter (registerModel bringup teardown) (n + 1)
        (loopEntry (registerModel bringup teardown) m0)).hw TEST_ADDR = n % U32_MOD := by
  refine ⟨?_, ?_, ?_, ?_, ?_, ?_⟩
  · rw [iter_entry_trace, List.countP_cons, loopAccesses_countP_write]
    rfl
  · rw [iter_entry_trace, List.countP_cons, loopAccesses_countP_read]
    rfl
  · rw [iter_entry_trace]
    intro e he
    rcases List.mem_cons.mp he with he | he
    · exact Or.inl he
    · exact Or.inr (loopAccesses_addr _ _ _ he)
  · rw [iter_entry_trace]
    intro e he
    rcases List.mem_cons.mp he with he | he
    · rw [he]; rfl
    · obtain ⟨i, _, hw | hw⟩ := loopAccesses_mem _ _ _ he <;> rw [hw] <;> rfl
  · rw [register_frame bringup teardown _ n a ha]
    rfl
  · rw [iter_succ, register_loopBody_hw, Function.update_same, iter_entry_data]

/-- Instance of C7: after three iterations on a zeroed plain memory, address
`0x40000004` still holds `0`. -/
theorem sole_side_effect_witness :
    1073741828 ≠ TEST_ADDR ∧
    (iter plainRegister 3 (loopEntry plainRegister zeroMem)).hw 1073741828 = 0 :=
  ⟨by decide,
   (sole_side_effect (fun m => m) (fun m => m) zeroMem 3 1073741828 (by decide)).2.2.2.2.1⟩

/-- C8 (init before loop).  Whatever the hardware does and whatever the storage of
the locals holds on entry: before the first step nothing has been emitted; the
first step calls `init_platform` and reaches the loop with `data = 0`,
`data_read = 0` and `err = 0`; and after any number `k + 1` of steps the trace is
`init_platform` followed by events none of which is `init_platform` or
`cleanup_platform`, so `init_platform` occurs exactly once, every register access
in the trace comes after it, and `cleanup_platform` does not occur. -/
theorem init_before_loop {σ : Type} (P : Platform σ) (h : σ) (junk : Nat × Nat × Nat)
    (k : Nat) :
    (run P 0 (start h junk) = some (start h junk) ∧ (start h junk).trace = []) ∧
    (∃ c, run P 1 (start h junk) = some c ∧ c.pc = Pc.loop ∧ c.data = 0 ∧
      c.data_read = 0 ∧ c.err = 0 ∧ c.hw = P.init_platform h ∧
      c.trace = [Event.init_platform]) ∧
    (∃ c rest, run P (k + 1) (start h junk) = some c ∧
      c.trace = Event.init_platform :: rest ∧
      Event.init_platform ∉ rest ∧ Event.cleanup_platform ∉ rest ∧
      c.trace.count Event.init_platform = 1 ∧
      (∀ (j : Nat) (e : Event), c.trace[j]? = some e → e.isAccess = true →
        0 < j ∧ c.trace[0]? = some Event.init_platform)) := by
  refine ⟨⟨rfl, rfl⟩, ⟨_, step_start P h junk, rfl, rfl, rfl, rfl, rfl, rfl⟩, ?_⟩
  have hinit : Event.init_platform ∉ loopAccesses (readBack P h) k := by
    intro hm
    have ha := (loopAccesses_addr _ _ _ hm).1
    cases ha
  have hclean : Event.cleanup_platform ∉ loopAccesses (readBack P h) k := by
    intro hm
    have ha := (loopAccesses_addr _ _ _ hm).1
    cases ha
  refine ⟨_, loopAccesses (readBack P h) k, run_succ_start P h junk k,
    iter_entry_trace P h k, hinit, hclean, ?_, ?_⟩
  · rw [iter_entry_trace, List.count_cons_self, List.count_eq_zero_of_not_mem hinit]
  · intro j e hj he
    rw [iter_entry_trace] at hj ⊢
    refine ⟨?_, List.getElem?_cons_zero⟩
    cases j with
    | zero =>
      simp only [List.getElem?_cons_zero, Option.some.injEq] at hj
      rw [← hj] at he
      cases he
    | succ j => omega

/-- C9, the claim as stated fails: when every read returns `5` in one run and `6`
in the other, after one iteration `err` is the same in both runs while
`data_read` is `5` in one and `6` in the other, so `err` is not the only thing that
can differ. -/
theorem only_err_differs_counterexample :
    (mainAfter (fun _ => 5) 1).err = (mainAfter (fun _ => 6) 1).err ∧
    (mainAfter (fun _ => 5) 1).data_read = 5 ∧
    (mainAfter (fun _ => 6) 1).data_read = 6 ∧
    (mainAfter (fun _ => 5) 1).data_read ≠ (mainAfter (fun _ => 6) 1).data_read := by
  decide

/-- C9 as amended (the stimulus does not depend on the responses).  For any two
sequences `r`, `r'` of read-back values, `n` iterations of the loop of `main` end
with the same `data` and the same control point and have produced the same
sequence of `(address, value)` writes; of the three locals only `err` and
`data_read` can differ between two runs: `data_read` holds the last read-back
value itself, and there are runs in which `err` differs and runs in which
`data_read` differs. -/
theorem stimulus_independent (r r' : Nat → Nat) (n : Nat) :
    (mainAfter r n).data = (mainAfter r' n).data ∧
    writes (mainAfter r n).trace = writes (mainAfter r' n).trace ∧
    (mainAfter r n).pc = (mainAfter r' n).pc ∧
    (mainAfter r (n + 1)).data_read = r n % U32_MOD ∧
    (∃ (s s' : Nat → Nat) (m : Nat), (mainAfter s m).err ≠ (mainAfter s' m).err) ∧
    (∃ (s s' : Nat → Nat) (m : Nat),
      (mainAfter s m).data_read ≠ (mainAfter s' m).data_read) := by
  refine ⟨?_, ?_, ?_, mainAfter_succ_data_read r n, ⟨fun _ => 0, fun _ => 1, 1, by decide⟩,
    ⟨fun _ => 5, fun _ => 6, 1, by decide⟩⟩
  · rw [mainAfter_data, mainAfter_data]
  · rw [mainAfter_trace, mainAfter_trace]
    show writes (loopAccesses _ n) = writes (loopAccesses _ n)
    exact loopAccesses_writes _ _ n
  · unfold mainAfter
    rw [iter_entry_pc, iter_entry_pc]

/-- C10 (mismatches never outnumber iterations before the first wraparound).  For
every sequence of read-back values and every `n < 2^32`, after `n` iterations of
the loop of `main` `data = n` and `err ≤ data`; and for the sequence whose first
read alone is wrong, after `2^32` iterations `data = 0` while `err = 1`, so the
bound fails there. -/
theorem err_le_data_before_wrap :
    (∀ (r : Nat → Nat) (n : Nat), n < U32_MOD →
      (mainAfter r n).data = n ∧ (mainAfter r n).err ≤ (mainAfter r n).data) ∧
    (∃ r : Nat → Nat, (∀ i, r i < U32_MOD) ∧
      (mainAfter r U32_MOD).data = 0 ∧ (mainAfter r U32_MOD).err = 1 ∧
      ¬ ((mainAfter r U32_MOD).err ≤ (mainAfter r U32_MOD).data)) := by
  refine ⟨?_, firstOff, firstOff_lt, ?_⟩
  · intro r n hn
    have hd : (mainAfter r n).data = n := by
      rw [mainAfter_data]
      exact Nat.mod_eq_of_lt hn
    refine ⟨hd, ?_⟩
    rw [hd]
    exact mainAfter_err_le r n
  · have hd : (mainAfter firstOff U32_MOD).data = 0 := by
      rw [mainAfter_data]
      exact Nat.mod_self _
    have he : (mainAfter firstOff U32_MOD).err = 1 := by
      rw [mainAfter_err firstOff firstOff_lt]
      rw [mismatches_firstOff_pos U32_MOD (by decide)]
      rfl
    refine ⟨hd, he, ?_⟩
    rw [hd, he]
    decide

/-- Instance of C10: with every read-back off by one, after three iterations
`err ≤ data`. -/
theorem err_le_data_before_wrap_witness :
    3 < U32_MOD ∧ (mainAfter alwaysOff 3).data = 3 ∧
    (mainAfter alwaysOff 3).err ≤ (mainAfter alwaysOff 3).data :=
  ⟨by decide, err_le_data_before_wrap.1 alwaysOff 3 (by decide)⟩

end Helloworld
